import Mathlib

/-!
Shallow embedding of the match discovery and deduplication engine of the
sejusaas repository (COH3 stats monitor), together with proofs about its
fingerprinting, classification, persistence, scheduling and extraction
logic.

The embedding follows the Python sources:
* namespace `Sejusaas`   — `src/sejusaas/services/game_monitor.py`
  (the package variant exercised by `src/tests/test_game_monitor.py`;
  `generate_unique_match_id`, `is_custom_game_between_players`,
  `is_auto_match_with_registered_player`, `process_matches`,
  `get_players_to_analyze`, `check_for_new_games`);
* namespace `ServicesGM` — `src/services/game_monitor.py`
  (`get_players_to_analyze` with its None-first ordering, and the full
  `extract_matches_from_page` strategy chain).

Python values flowing through the extraction pipeline are modelled by a
small JSON datatype; Python dictionaries holding per-player check times
are modelled by association lists; a raised exception is modelled by the
`Except` monad, with `try`/`except` blocks becoming an explicit `match`
on the result.  Machine-level concerns that no claim depends on are
modelled by explicit placeholder functions (`md5hex`, `fromtimestampIso`,
`pyStr` on containers), each documented at its definition.
-/

/-- JSON-like Python values as they appear in the scraped page data. -/
inductive Json where
  | null : Json
  | bool : Bool → Json
  | num : Int → Json
  | str : String → Json
  | arr : List Json → Json
  | obj : List (String × Json) → Json
deriving Repr

/-- Key lookup in the field list of a JSON object (first binding wins,
as in a Python dict built from distinct keys). -/
def jLookup : List (String × Json) → String → Option Json
  | [], _ => none
  | (k1, v) :: rest, k => if k1 = k then some v else jLookup rest k

/-- Models Python `x.get(k, d)`: succeeds with the stored value (or the
default `d` when the key is absent) when `x` is a dict, and raises
(`AttributeError`) on any non-dict value. -/
def jget (j : Json) (k : String) (d : Json) : Except Unit Json :=
  match j with
  | .obj kvs => .ok ((jLookup kvs k).getD d)
  | _ => .error ()

/-- Models Python `x[k]` for a string key: succeeds only on a dict that
holds the key; raises otherwise. -/
def jindex (j : Json) (k : String) : Except Unit Json :=
  match j with
  | .obj kvs =>
    match jLookup kvs k with
    | some v => .ok v
    | none => .error ()
  | _ => .error ()

/-- Python truthiness of a JSON value. -/
def jtruthy : Json → Bool
  | .null => false
  | .bool b => b
  | .num n => n != 0
  | .str s => !(s = "")
  | .arr xs => !xs.isEmpty
  | .obj kvs => !kvs.isEmpty

/-- Boolean test that one character list is a prefix of another. -/
def listPrefixEq : List Char → List Char → Bool
  | [], _ => true
  | _ :: _, [] => false
  | a :: as, b :: bs => a == b && listPrefixEq as bs

/-- Boolean test that `needle` occurs as a contiguous run inside `hay`. -/
def listHasSub (needle : List Char) : List Char → Bool
  | [] => listPrefixEq needle []
  | b :: bs => listPrefixEq needle (b :: bs) || listHasSub needle bs

/-- Models the Python substring test `needle in hay` on strings. -/
def pyIn (needle hay : String) : Bool :=
  listHasSub needle.toList hay.toList

/-- Models Python `str(x)` for a JSON value.  Scalar renderings follow
Python exactly (`str(None) = "None"` etc.); the rendering of containers
is a placeholder, since no code under verification ever stringifies a
container along a path a claim depends on. -/
def pyStr : Json → String
  | .null => "None"
  | .bool true => "True"
  | .bool false => "False"
  | .num n => toString n
  | .str s => s
  | .arr _ => "[...]"
  | .obj _ => "\x7b...\x7d"

/-- Models Python `k in x` for a string `k`: key membership on dicts,
element membership on lists, substring test on strings; raises on
values that support no membership test. -/
def pyContains (j : Json) (k : String) : Except Unit Bool :=
  match j with
  | .obj kvs => .ok ((jLookup kvs k).isSome)
  | .arr xs => .ok (xs.any (fun x => match x with | .str s => s = k | _ => false))
  | .str s => .ok (pyIn k s)
  | _ => .error ()

/-- Models Python iteration `for x in j`: the elements of a list, the
keys of a dict, the one-character strings of a string; raises on
non-iterable values. -/
def jsonIter : Json → Except Unit (List Json)
  | .arr xs => .ok xs
  | .obj kvs => .ok (kvs.map (fun kv => Json.str kv.1))
  | .str s => .ok (s.toList.map (fun c => Json.str (String.mk [c])))
  | _ => .error ()

/-- Models Python `s.lower()`: lower-case each character. -/
def pyLower (s : String) : String :=
  String.mk (s.toList.map Char.toLower)

/-- Lexicographic code-point comparison of character lists — the
ordering Python's `list.sort()` uses on strings. -/
def charListLE : List Char → List Char → Bool
  | [], _ => true
  | _ :: _, [] => false
  | a :: as, b :: bs =>
    if a < b then true else if b < a then false else charListLE as bs

/-- Models Python string comparison `a <= b` (lexicographic by code
point), used as the sort order of `player_ids.sort()`. -/
def pyStrLE (a b : String) : Prop :=
  charListLE a.toList b.toList = true

instance : DecidableRel pyStrLE :=
  fun a b => instDecidableEqBool (charListLE a.toList b.toList) true

/-- Models the MD5 hex digest used by the source for fingerprints.  The
digest function itself is a library concern; every claim under
verification depends only on which input strings are hashed, never on
the digest bytes, so the digest is modelled as the identity on the
input string (an injective stand-in for a collision-free hash). -/
def md5hex (s : String) : String := s

/-- Models `datetime.fromtimestamp(t).isoformat()` /
`.strftime(...)`: an injective rendering of the numeric timestamp.  The
exact calendar formatting is a library concern no claim depends on. -/
def fromtimestampIso (t : Int) : String := "ts:" ++ toString t

/-- One participant slot of a match roster, as built by the extraction
strategies: `player_id` may be missing (Python `None`), and
`player_name` holds whatever JSON value the page supplied. -/
structure RosterEntry where
  player_id : Option String
  player_name : Json
deriving Repr

/-- The canonical match record built by the extraction strategies and
consumed by the fingerprint, classifier and persistence code.  Fields
that are written once and never read by any code under verification
(`is_simulated`, `scraped_at`, the extraction-time `discovered_at`
string) are not modelled. -/
structure Match where
  match_id : String
  player_id : String
  player_name : String
  match_date : String
  match_type : String
  match_result : String
  map_name : Json
  axis_players : List RosterEntry
  allies_players : List RosterEntry
  is_custom : Bool
  unique_match_id : String
deriving Repr

/-- A tracked player document from the `players` collection: the code
reads `player['player_id']` and `player['player_name']` directly, so
both fields are present. -/
structure RegisteredPlayer where
  player_id : String
  player_name : String
deriving Repr, DecidableEq

namespace Sejusaas

/-- The participant ids of a match in roster order, axis first — the
list built by the loop `for player in match.get('axis_players', []) +
match.get('allies_players', []): ... append(player.get('player_id'))`
shared by `generate_unique_match_id`, `is_custom_game_between_players`
and `is_auto_match_with_registered_player`. -/
def matchPlayerIds (m : Match) : List (Option String) :=
  (m.axis_players ++ m.allies_players).map (·.player_id)

/-- `GameMonitorService.generate_unique_match_id`
(src/sejusaas/services/game_monitor.py lines 66-78, identical in
src/main.py lines 491-505): sort the collected player ids, join with
`"-"`, append `"_" + match_date`, and hash.  When some participant id
is Python `None`, the source raises a `TypeError` (either `list.sort`
comparing `None` with a string, or `str.join` receiving `None`);
this is modelled by `Except.error`. -/
def generate_unique_match_id (m : Match) : Except Unit String :=
  if (matchPlayerIds m).all (·.isSome) then
    .ok (md5hex (String.intercalate "-"
        (List.insertionSort pyStrLE ((matchPlayerIds m).filterMap id))
        ++ "_" ++ m.match_date))
  else .error ()

/-- The list `registered_player_ids = [p['player_id'] for p in
registered_players]`. -/
def registered_player_ids (regs : List RegisteredPlayer) : List String :=
  regs.map (·.player_id)

/-- Models Python `player_id in registered_player_ids` where the match
side `player_id` may be `None`: `None` never equals a string, so a
missing id is never registered. -/
def pyIdMem (pid : Option String) (ids : List String) : Bool :=
  match pid with
  | none => false
  | some s => ids.contains s

/-- The `'custom' in match.get('match_type', '').lower()` test shared
by both classifier predicates. -/
def is_custom_type (m : Match) : Bool :=
  pyIn "custom" (pyLower m.match_type)

/-- `GameMonitorService.is_custom_game_between_players`
(src/sejusaas/services/game_monitor.py lines 80-96, identical in
src/main.py): every participant id registered, and the match type
contains `"custom"` case-insensitively. -/
def is_custom_game_between_players (m : Match) (regs : List RegisteredPlayer) : Bool :=
  let match_players := matchPlayerIds m
  let rids := registered_player_ids regs
  let all_players_registered := match_players.all (fun pid => pyIdMem pid rids)
  is_custom_type m && all_players_registered

/-- `GameMonitorService.is_auto_match_with_registered_player`
(src/sejusaas/services/game_monitor.py lines 98-114): at least one
participant id registered, and the match type does not contain
`"custom"`. -/
def is_auto_match_with_registered_player (m : Match) (regs : List RegisteredPlayer) : Bool :=
  let match_players := matchPlayerIds m
  let rids := registered_player_ids regs
  let any_player_registered := match_players.any (fun pid => pyIdMem pid rids)
  !(is_custom_type m) && any_player_registered

/-- The three routes a match can take in `process_matches`. -/
inductive MatchClass where
  | CustomGame : MatchClass
  | AutoMatch : MatchClass
  | Discard : MatchClass
deriving Repr, DecidableEq

/-- The classification order of `process_matches`
(src/sejusaas/services/game_monitor.py lines 297-305): the custom-game
test first, then the auto-match test, else the match is ignored. -/
def classify (m : Match) (regs : List RegisteredPlayer) : MatchClass :=
  if is_custom_game_between_players m regs then .CustomGame
  else if is_auto_match_with_registered_player m regs then .AutoMatch
  else .Discard

end Sejusaas

/-- Lookup in an association list modelling a Python dict keyed by
player id. -/
def alookup {α : Type} : List (String × α) → String → Option α
  | [], _ => none
  | (k1, v) :: rest, k => if k1 = k then some v else alookup rest k

/-- Assignment `d[k] = v` on an association list modelling a Python
dict: replace the existing binding, or append a new one. -/
def aset {α : Type} : List (String × α) → String → α → List (String × α)
  | [], k, v => [(k, v)]
  | (k1, v1) :: rest, k, v =>
    if k1 = k then (k, v) :: rest else (k1, v1) :: aset rest k v

namespace Sejusaas

/-- The in-memory `self.last_check_times` dict: player id to the time
of the last completed check. -/
abbrev LastCheck := List (String × Nat)

/-- A document as stored in the `custom_games` / `automatches`
collections: the match, the `unique_match_id` field set by
`process_matches` before insertion, and the `discovered_at` stamp. -/
structure StoredMatch where
  data : Match
  unique_match_id : String
  discovered_at : Nat
deriving Repr

/-- The two match collections of the Mongo store reachable from
`process_matches`. -/
structure Store where
  custom_games : List StoredMatch
  auto_matches : List StoredMatch
deriving Repr

/-- Models `collection.find_one({"unique_match_id": uid})` reduced to
the presence test the source uses it for. -/
def find_by_uid (coll : List StoredMatch) (uid : String) : Bool :=
  coll.any (fun sm => sm.unique_match_id = uid)

/-- The per-match loop body of `GameMonitorService.process_matches`
(src/sejusaas/services/game_monitor.py lines 286-312), with the two
insert counters threaded through.  A `TypeError` raised by
`generate_unique_match_id` propagates out of the loop; the store at
that moment (inserts already performed are not rolled back) is carried
in the `Except.error` value. -/
def process_matches_aux (regs : List RegisteredPlayer) (now : Nat) :
    List Match → Store → Nat → Nat → Except Store (Store × Nat × Nat)
  | [], s, nc, na => .ok (s, nc, na)
  | m :: rest, s, nc, na =>
    match generate_unique_match_id m with
    | .error _ => .error s
    | .ok uid =>
      if is_custom_game_between_players m regs then
        if find_by_uid s.custom_games uid then
          process_matches_aux regs now rest s nc na
        else
          process_matches_aux regs now rest
            { s with custom_games :=
                s.custom_games ++ [⟨{ m with unique_match_id := uid }, uid, now⟩] }
            (nc + 1) na
      else if is_auto_match_with_registered_player m regs then
        if find_by_uid s.auto_matches uid then
          process_matches_aux regs now rest s nc na
        else
          process_matches_aux regs now rest
            { s with auto_matches :=
                s.auto_matches ++ [⟨{ m with unique_match_id := uid }, uid, now⟩] }
            nc (na + 1)
      else process_matches_aux regs now rest s nc na

/-- `GameMonitorService.process_matches`: returns the updated store and
the `(new_custom_games, new_auto_matches)` counters.  `discovered_at`
is stamped with the cycle time `now` (the source calls
`datetime.now()` per insert; only its presence, not its value, is ever
read). -/
def process_matches (ms : List Match) (regs : List RegisteredPlayer) (now : Nat)
    (s : Store) : Except Store (Store × Nat × Nat) :=
  process_matches_aux regs now ms s 0 0

/-- The mutable state touched by one `check_for_new_games` cycle. -/
structure MonitorState where
  store : Store
  last_check_times : LastCheck
deriving Repr

/-- The per-player body of the loop in
`GameMonitorService.check_for_new_games`
(src/sejusaas/services/game_monitor.py lines 330-352): extract the
player's matches (`fetch` models `extract_player_matches`, whose own
failures surface as an exception here), process them, and only then
advance `last_check_times[player_id]`.  Any exception in the body is
caught by the `except` clause and the loop continues with the next
player, leaving that player's check time untouched. -/
def check_player (fetch : String → String → Except Unit (List Match))
    (regs : List RegisteredPlayer) (now : Nat)
    (st : MonitorState) (p : RegisteredPlayer) : MonitorState :=
  match fetch p.player_id p.player_name with
  | .error _ => st
  | .ok ms =>
    match process_matches ms regs now st.store with
    | .error s2 => { st with store := s2 }
    | .ok (s2, _, _) =>
      { store := s2, last_check_times := aset st.last_check_times p.player_id now }

/-- The `for player in players_batch` loop of `check_for_new_games`
over a selected batch. -/
def check_players_batch (fetch : String → String → Except Unit (List Match))
    (regs : List RegisteredPlayer) (now : Nat)
    (batch : List RegisteredPlayer) (st : MonitorState) : MonitorState :=
  batch.foldl (check_player fetch regs now) st

/-- `BATCH_SIZE = 5` (src/sejusaas/services/game_monitor.py line 31). -/
def BATCH_SIZE : Nat := 5

/-- Models `datetime.min`, the sort default for a player id absent from
`last_check_times`. -/
def datetimeMin : Nat := 0

/-- The first loop of `GameMonitorService.get_players_to_analyze`
(src/sejusaas/services/game_monitor.py lines 53-57): every player id
not yet in `self.last_check_times` is assigned `current_time`. -/
def init_check_times (players : List RegisteredPlayer) (now : Nat)
    (lc : LastCheck) : LastCheck :=
  players.foldl
    (fun acc p => if alookup acc p.player_id = none then aset acc p.player_id now else acc)
    lc

/-- The sort key comparison of line 60: `key=lambda p:
self.last_check_times.get(p['player_id'], datetime.min)`. -/
def check_time_rel (lc : LastCheck) (p q : RegisteredPlayer) : Prop :=
  (alookup lc p.player_id).getD datetimeMin ≤ (alookup lc q.player_id).getD datetimeMin

instance (lc : LastCheck) : DecidableRel (check_time_rel lc) :=
  fun _ _ => Nat.decLe _ _

/-- The in-place `players.sort(key=...)` of line 60. -/
def sorted_players (players : List RegisteredPlayer) (lc : LastCheck) :
    List RegisteredPlayer :=
  List.insertionSort (check_time_rel lc) players

/-- `GameMonitorService.get_players_to_analyze`
(src/sejusaas/services/game_monitor.py lines 45-64): initialise check
times for unseen players, sort by last check time, return the first
`BATCH_SIZE` players.  The mutated `last_check_times` dict is returned
alongside the batch. -/
def get_players_to_analyze (players : List RegisteredPlayer) (lc : LastCheck)
    (now : Nat) : List RegisteredPlayer × LastCheck :=
  let lc2 := init_check_times players now lc
  ((sorted_players players lc2).take BATCH_SIZE, lc2)

end Sejusaas

namespace ServicesGM

/-- The `self.last_check_times` dict of src/services/game_monitor.py:
a player id can be bound to `None` (first check pending) or to a
check time. -/
abbrev LastCheckN := List (String × Option Nat)

/-- The first loop of `get_players_to_analyze`
(src/services/game_monitor.py lines 64-70): unseen players are bound
to `None` to mark a pending first check. -/
def init_check_times (players : List RegisteredPlayer) (lc : LastCheckN) : LastCheckN :=
  players.foldl
    (fun acc p => if alookup acc p.player_id = none then aset acc p.player_id none else acc)
    lc

/-- `self.last_check_times.get(p['player_id'])`: absent keys and keys
bound to `None` both read as `None`. -/
def sortVal (lc : LastCheckN) (pid : String) : Option Nat :=
  match alookup lc pid with
  | none => none
  | some v => v

/-- The tuple key comparison of lines 73-76: `(get(pid) is not None,
get(pid) or datetime.min)` compared lexicographically — `None` sorts
before every concrete time, concrete times sort ascending. -/
def keyLE : Option Nat → Option Nat → Prop
  | none, _ => True
  | some _, none => False
  | some x, some y => x ≤ y

instance : DecidableRel keyLE := fun a b =>
  match a, b with
  | none, _ => .isTrue trivial
  | some _, none => .isFalse (fun h => h)
  | some x, some y => Nat.decLe x y

/-- The player ordering induced by `keyLE` on the sort values. -/
def stale_rel (lc : LastCheckN) (p q : RegisteredPlayer) : Prop :=
  keyLE (sortVal lc p.player_id) (sortVal lc q.player_id)

instance (lc : LastCheckN) : DecidableRel (stale_rel lc) :=
  fun _ _ => inferInstanceAs (Decidable (keyLE _ _))

/-- The in-place `players.sort(key=...)` of lines 73-76. -/
def sorted_players (players : List RegisteredPlayer) (lc : LastCheckN) :
    List RegisteredPlayer :=
  List.insertionSort (stale_rel lc) players

/-- `GameMonitorService.get_players_to_analyze`
(src/services/game_monitor.py lines 55-81): mark unseen players as
never checked, sort never-checked players first and the rest by
ascending check time, return the first 5. -/
def get_players_to_analyze (players : List RegisteredPlayer) (lc : LastCheckN) :
    List RegisteredPlayer × LastCheckN :=
  let lc2 := init_check_times players lc
  ((sorted_players players lc2).take 5, lc2)

end ServicesGM

namespace ServicesGM

/-- Models Python `x == k` / `x in [..integers..]` for a JSON value
against an integer: numbers compare numerically, booleans compare as
0/1 (Python `True == 1`), everything else is unequal. -/
def jeqInt (j : Json) (k : Int) : Bool :=
  match j with
  | .num n => n == k
  | .bool b => (if b then (1 : Int) else 0) == k
  | _ => false

/-- The `matches_data` path search of `extract_matches_from_page`
(src/services/game_monitor.py lines 117-130): `matches`, then
`recentMatches`, then the two keys inside a dict-valued
`playerDataAPI`.  `none` models Python `matches_data = None`. -/
def findMatchesData (page_props : Json) : Except Unit (Option Json) := do
  let b1 ← pyContains page_props "matches"
  if b1 then do
    let v ← jindex page_props "matches"
    return some v
  else
    let b2 ← pyContains page_props "recentMatches"
    if b2 then do
      let v ← jindex page_props "recentMatches"
      return some v
    else
      let b3 ← pyContains page_props "playerDataAPI"
      if b3 then do
        let pd ← jindex page_props "playerDataAPI"
        match pd with
        | .obj kvs =>
          if (jLookup kvs "matches").isSome then
            return some ((jLookup kvs "matches").getD .null)
          else if (jLookup kvs "recentMatches").isSome then
            return some ((jLookup kvs "recentMatches").getD .null)
          else return none
        | _ => return none
      else return none

/-- The `dehydratedState` fallback loop (lines 133-143): every query
whose `state.data` dict holds `matches` or `recentMatches` overwrites
`matches_data`, so the last hit wins. -/
def dehydratedScan : List Json → Option Json → Except Unit (Option Json)
  | [], acc => .ok acc
  | q :: rest, acc => do
    let hs ← pyContains q "state"
    if hs then do
      let st ← jindex q "state"
      let hd ← pyContains st "data"
      if hd then do
        let data ← jindex st "data"
        match data with
        | .obj kvs =>
          if (jLookup kvs "matches").isSome then
            dehydratedScan rest (some ((jLookup kvs "matches").getD .null))
          else if (jLookup kvs "recentMatches").isSome then
            dehydratedScan rest (some ((jLookup kvs "recentMatches").getD .null))
          else dehydratedScan rest acc
        | _ => dehydratedScan rest acc
      else dehydratedScan rest acc
    else dehydratedScan rest acc

/-- The roster-building loop over `matchhistoryreportresults` (lines
161-173): race ids 0 and 3 are axis, everything else allies. -/
def buildTeams : List Json → Except Unit (List RosterEntry × List RosterEntry)
  | [] => .ok ([], [])
  | r :: rest => do
    let pidv ← jget r "profile_id" (.str "")
    let profile ← jget r "profile" (.obj [])
    let namev ← jget profile "name" (.str "Unknown")
    let info : RosterEntry := ⟨some (pyStr pidv), namev⟩
    let ridv ← jget r "race_id" .null
    let teams ← buildTeams rest
    if jeqInt ridv 0 || jeqInt ridv 3 then
      pure (info :: teams.1, teams.2)
    else
      pure (teams.1, info :: teams.2)

/-- The result-resolution loop (lines 177-181): the requesting
player's report sets `victory` / `defeat` / `unknown`; a later
matching report overwrites an earlier one. -/
def resultScan (player_id : String) : List Json → String → Except Unit String
  | [], acc => .ok acc
  | r :: rest, acc => do
    let pidv ← jget r "profile_id" (.str "")
    if pyStr pidv = player_id then do
      let rt ← jget r "resulttype" (.num (-1))
      resultScan player_id rest
        (if jeqInt rt 1 then "victory" else if jeqInt rt 0 then "defeat" else "unknown")
    else resultScan player_id rest acc

/-- One iteration of the `for match_data in matches_data` loop of the
structured-data strategy (lines 147-205), building one canonical match.
An exception anywhere in the body is caught by the per-match
`except ... continue`. -/
def processNextItem (player_id player_name : String) (now : Int)
    (match_data : Json) : Except Unit Match := do
  let idv ← jget match_data "id" (.str "")
  let midv ← jget match_data "matchId" (.str "")
  let match_id := if pyStr idv ≠ "" then pyStr idv else pyStr midv
  let ct ← jget match_data "completiontime" (.num 0)
  let stg ← jget match_data "startgametime" (.num 0)
  let tj := if jtruthy ct then ct else if jtruthy stg then stg else .num now
  let t ← (match tj with
    | .num n => Except.ok n
    | .bool b => Except.ok (if b then (1 : Int) else 0)
    | _ => Except.error ())
  let match_date := fromtimestampIso t
  let reportsJ ← jget match_data "matchhistoryreportresults" (.arr [])
  let reports ← jsonIter reportsJ
  let teams ← buildTeams reports
  let mtv ← jget match_data "matchtype_id" (.num 1)
  let match_type := if jeqInt mtv 0 then "custom" else "automatch"
  let result ← resultScan player_id reports "unknown"
  let mapv ← jget match_data "mapname" (.str "Unknown")
  pure { match_id := match_id, player_id := player_id, player_name := player_name,
           match_date := match_date, match_type := match_type, match_result := result,
           map_name := mapv, axis_players := teams.1, allies_players := teams.2,
           is_custom := match_type == "custom",
           unique_match_id := md5hex (match_date ++ "_" ++ match_id ++ "_" ++ match_type) }

/-- The whole structured-data (`__NEXT_DATA__`) strategy (lines
112-209): walk the alternative key paths, fall back to
`dehydratedState`, then map each raw item, skipping items whose
processing raises. -/
def processNextData (next_data : Json) (player_id player_name : String)
    (now : Int) : Except Unit (List Match) := do
  let props ← jget next_data "props" (.obj [])
  let page_props ← jget props "pageProps" (.obj [])
  let md1 ← findMatchesData page_props
  let falsy := match md1 with
    | none => true
    | some j => !jtruthy j
  let md2 ← (if falsy then do
      let hd ← pyContains next_data "dehydratedState"
      if hd then do
        let dehydrated ← jindex next_data "dehydratedState"
        let hq ← pyContains dehydrated "queries"
        if hq then do
          let qv ← jindex dehydrated "queries"
          let qs ← jsonIter qv
          dehydratedScan qs md1
        else pure md1
      else pure md1
    else pure md1)
  match md2 with
  | some j =>
    if jtruthy j then do
      let items ← jsonIter j
      pure (items.filterMap
        (fun it => (processNextItem player_id player_name now it).toOption))
    else pure []
  | none => pure []

/-- An anchor element in a participant cell of the rendered match
table: its `href` attribute (possibly absent) and its inner text. -/
structure TableLink where
  href : Option String
  text : String
deriving Repr

/-- One cell of a rendered table row: its inner text, the optional
result-indicator child element with its optional `class` attribute,
and its anchor elements. -/
structure TableCell where
  text : String
  result_div : Option (Option String)
  links : List TableLink
deriving Repr

/-- One row of the rendered match table. -/
structure TableRow where
  cells : List TableCell
  full_text : String
deriving Repr

/-- Models `re.search(r'/players/(\d+)', href)`: the digits following
the first occurrence of `/players/` that is immediately followed by at
least one digit. -/
def digitsAfterPlayers : List Char → Option String
  | [] => none
  | c :: rest =>
    if listPrefixEq "/players/".toList (c :: rest) then
      let ds := ((c :: rest).drop 9).takeWhile Char.isDigit
      if ds.isEmpty then digitsAfterPlayers rest else some (String.mk ds)
    else digitsAfterPlayers rest

/-- Participant resolution for one cell (lines 242-261): keep only the
anchors whose `href` (defaulted to `""`) encodes a numeric player id. -/
def linksToEntries (links : List TableLink) : List RosterEntry :=
  links.filterMap (fun link =>
    match digitsAfterPlayers (link.href.getD "").toList with
    | some pid => some ⟨some pid, Json.str link.text.trim⟩
    | none => none)

/-- One iteration of the rendered-table strategy's row loop (lines
218-285): rows with fewer than six cells produce nothing, a raised
error (`class` attribute absent on the result indicator) is caught by
the per-row `except ... continue`. -/
def processTableRow (player_id player_name : String) (row : TableRow) :
    Except Unit (Option Match) :=
  match row.cells with
  | c0 :: c1 :: c2 :: c3 :: c4 :: c5 :: _ => do
    let date_text := c0.text.trim
    let result ← (match c1.result_div with
      | none => Except.ok "defeat"
      | some cls =>
        match cls with
        | none => Except.error ()
        | some c => Except.ok (if pyIn "win-indicator" c then "victory" else "defeat"))
    let map_name := c4.text.trim
    let mode_cell := c5.text.trim
    let match_type := if pyIn "custom" (pyLower mode_cell) then "custom" else "automatch"
    let axis_players := linksToEntries c2.links
    let allies_players := linksToEntries c3.links
    pure (some { match_id := md5hex row.full_text, player_id := player_id,
                 player_name := player_name, match_date := date_text,
                 match_type := match_type, match_result := result,
                 map_name := Json.str map_name, axis_players := axis_players,
                 allies_players := allies_players,
                 is_custom := match_type == "custom",
                 unique_match_id :=
                   md5hex (date_text ++ "_" ++ player_id ++ "_" ++ match_type) })
  | _ => .ok none

/-- The rendered-table strategy over the non-header rows. -/
def processTableRows (player_id player_name : String) (rows : List TableRow) :
    List Match :=
  rows.filterMap (fun r =>
    match processTableRow player_id player_name r with
    | .ok (some m) => some m
    | _ => none)

/-- The outcomes of the external page operations one call to
`extract_matches_from_page` performs, in program order: the
`wait_for_selector('table')` call, the `page.evaluate` reading
`__NEXT_DATA__` (`Json.null` when the element is missing or its JSON
fails to parse), the debug-file dump, the `table tr` query, and the
no-match screenshot.  `now` is the clock value read by
`time.time()`. -/
structure PageInput where
  now : Int
  wait_table : Except Unit Unit
  next_data : Except Unit Json
  save_debug : Except Unit Unit
  table_rows : Except Unit (List TableRow)
  screenshot : Except Unit Unit
deriving Repr

/-- The body of the single `try` block spanning the whole of
`extract_matches_from_page` (src/services/game_monitor.py lines
88-298): structured-data strategy first, the rendered-table strategy
only when it produced no records, the diagnostic screenshot only when
both produced none. -/
def extract_matches_body (pg : PageInput) (player_id player_name : String) :
    Except Unit (List Match) := do
  let _ ← pg.wait_table
  let nd ← pg.next_data
  let matches1 ← (if jtruthy nd then do
      let _ ← pg.save_debug
      processNextData nd player_id player_name pg.now
    else pure [])
  let matches2 ← (if matches1.isEmpty then do
      let rows ← pg.table_rows
      pure (if rows.length > 1 then
          processTableRows player_id player_name (rows.drop 1)
        else [])
    else pure matches1)
  let _ ← (if matches2.isEmpty then pg.screenshot else pure ())
  pure matches2

/-- `GameMonitorService.extract_matches_from_page`
(src/services/game_monitor.py lines 83-302): the whole strategy chain
runs inside one `try`, and the `except` clause returns the empty list,
so the caller always receives a list. -/
def extract_matches_from_page (pg : PageInput) (player_id player_name : String) :
    List Match :=
  match extract_matches_body pg player_id player_name with
  | .ok ms => ms
  | .error _ => []

end ServicesGM

/-- The tracked roster of `src/tests/test_game_monitor.py`. -/
def samplePlayers : List RegisteredPlayer :=
  [⟨"123", "seju-fuminguez"⟩, ⟨"456", "seju-Gavilan"⟩, ⟨"789", "seju-durumkebap"⟩]

/-- The `SAMPLE_CUSTOM_MATCH` fixture of the test suite. -/
def sampleCustomMatch : Match :=
  { match_id := "custom_1", player_id := "123", player_name := "seju-fuminguez",
    match_date := "2024-03-09T15:30:00", match_type := "Custom Game",
    match_result := "Victory", map_name := Json.str "Fields of Normandy",
    axis_players := [⟨some "123", Json.str "seju-fuminguez"⟩,
                     ⟨some "456", Json.str "seju-Gavilan"⟩],
    allies_players := [⟨some "789", Json.str "seju-durumkebap"⟩],
    is_custom := true, unique_match_id := "" }

/-- The same real-world match re-observed with sides swapped and the
rosters listed in a different order. -/
def sampleCustomMatchSwapped : Match :=
  { match_id := "custom_1b", player_id := "789", player_name := "seju-durumkebap",
    match_date := "2024-03-09T15:30:00", match_type := "Custom Game",
    match_result := "Defeat", map_name := Json.str "Fields of Normandy",
    axis_players := [⟨some "789", Json.str "seju-durumkebap"⟩],
    allies_players := [⟨some "456", Json.str "seju-Gavilan"⟩,
                       ⟨some "123", Json.str "seju-fuminguez"⟩],
    is_custom := true, unique_match_id := "" }

/-- A match in which one participant's `player_id` is missing (Python
`None`), as produced for every participant by the table strategy of
src/sejusaas/services/game_monitor.py (entries built with only a
`player_name` key). -/
def missingIdMatch : Match :=
  { match_id := "table_123_1", player_id := "123", player_name := "seju-fuminguez",
    match_date := "2024-03-09", match_type := "Custom Game",
    match_result := "Victory", map_name := Json.str "Fields of Normandy",
    axis_players := [⟨none, Json.str "ghost"⟩],
    allies_players := [⟨some "123", Json.str "seju-fuminguez"⟩],
    is_custom := true, unique_match_id := "" }

/-- A custom-typed match whose rosters are both empty. -/
def emptyRosterCustomMatch : Match :=
  { match_id := "empty_1", player_id := "123", player_name := "seju-fuminguez",
    match_date := "2024-03-10", match_type := "Custom Game 2v2",
    match_result := "Victory", map_name := Json.str "Fields of Normandy",
    axis_players := [], allies_players := [],
    is_custom := true, unique_match_id := "" }

/-- An automatch-typed match whose rosters are both empty. -/
def emptyRosterAutoMatch : Match :=
  { match_id := "empty_2", player_id := "123", player_name := "seju-fuminguez",
    match_date := "2024-03-10", match_type := "Ranked 1v1",
    match_result := "Victory", map_name := Json.str "Fields of Normandy",
    axis_players := [], allies_players := [],
    is_custom := false, unique_match_id := "" }

/-- The store produced by processing `sampleCustomMatch` against an
empty store at cycle time 1 (the fingerprint is the sorted-id join
under the identity digest model). -/
def sampleStoreAfter : Sejusaas.Store :=
  { custom_games := [⟨{ sampleCustomMatch with
        unique_match_id := "123-456-789_2024-03-09T15:30:00" },
      "123-456-789_2024-03-09T15:30:00", 1⟩],
    auto_matches := [] }

/-- One raw report entry of a structured-data match item. -/
def sampleReport1 : Json :=
  .obj [("profile_id", .num 1), ("profile", .obj [("name", .str "alice")]),
        ("race_id", .num 0), ("resulttype", .num 1)]

/-- A second raw report entry on the opposite team. -/
def sampleReport2 : Json :=
  .obj [("profile_id", .num 2), ("profile", .obj [("name", .str "bob")]),
        ("race_id", .num 1), ("resulttype", .num 0)]

/-- One raw match item as found under `props.pageProps.matches`. -/
def sampleNextItem : Json :=
  .obj [("id", .num 7), ("completiontime", .num 100), ("matchtype_id", .num 0),
        ("mapname", .str "Torrente"),
        ("matchhistoryreportresults", .arr [sampleReport1, sampleReport2])]

/-- A `__NEXT_DATA__` payload holding exactly one match item. -/
def sampleNextData : Json :=
  .obj [("props", .obj [("pageProps", .obj [("matches", .arr [sampleNextItem])])])]

/-- The canonical match the structured-data strategy builds from
`sampleNextItem` for requesting player id "1". -/
def sampleNextMatch : Match :=
  { match_id := "7", player_id := "1", player_name := "nm",
    match_date := "ts:100", match_type := "custom", match_result := "victory",
    map_name := Json.str "Torrente",
    axis_players := [⟨some "1", Json.str "alice"⟩],
    allies_players := [⟨some "2", Json.str "bob"⟩],
    is_custom := true, unique_match_id := "ts:100_7_custom" }

/-- A page whose `wait_for_selector` call times out before any
strategy can run. -/
def sampleFailPage : ServicesGM.PageInput :=
  { now := 0, wait_table := .error (), next_data := .ok .null,
    save_debug := .ok (), table_rows := .ok [], screenshot := .ok () }

/-- A page whose structured data yields one match while the table
query would raise: the table strategy must never be consulted. -/
def sampleGoodPage : ServicesGM.PageInput :=
  { now := 0, wait_table := .ok (), next_data := .ok sampleNextData,
    save_debug := .ok (), table_rows := .error (), screenshot := .ok () }

/-- A page with no usable `__NEXT_DATA__` and no table rows. -/
def sampleNullPage : ServicesGM.PageInput :=
  { now := 0, wait_table := .ok (), next_data := .ok .null,
    save_debug := .ok (), table_rows := .ok [], screenshot := .ok () }

/-- A fetch collaborator whose every call raises (for example a
browser launch failure in `extract_player_matches`). -/
def sampleFailFetch : String → String → Except Unit (List Match) :=
  fun _ _ => .error ()

/-- A monitor state with an empty store and one recorded check time. -/
def sampleMonitorState : Sejusaas.MonitorState :=
  { store := ⟨[], []⟩, last_check_times := [("456", 3)] }

namespace Sejusaas

/-- Helper: `charListLE` is total. -/
theorem charListLE_total : ∀ as bs : List Char,
    charListLE as bs = true ∨ charListLE bs as = true
  | [], _ => Or.inl rfl
  | _ :: _, [] => Or.inr rfl
  | a :: as, b :: bs => by
    rcases lt_trichotomy a b with h | h | h
    · left; simp [charListLE, h]
    · subst h
      rcases charListLE_total as bs with h2 | h2
      · left; simp [charListLE, lt_irrefl, h2]
      · right; simp [charListLE, lt_irrefl, h2]
    · right; simp [charListLE, h]

/-- Helper: `charListLE` is transitive. -/
theorem charListLE_trans : ∀ as bs cs : List Char,
    charListLE as bs = true → charListLE bs cs = true → charListLE as cs = true
  | [], _, _ => fun _ _ => rfl
  | _ :: _, [], _ => fun h _ => nomatch h
  | _ :: _, _ :: _, [] => fun _ h => nomatch h
  | a :: as, b :: bs, c :: cs => by
    intro h1 h2
    simp only [charListLE] at h1 h2 ⊢
    rcases lt_trichotomy a b with hab | hab | hab
    · rcases lt_trichotomy b c with hbc | hbc | hbc
      · simp [lt_trans hab hbc]
      · subst hbc; simp [hab]
      · rw [if_neg (asymm hbc), if_pos hbc] at h2; exact nomatch h2
    · subst hab
      rw [if_neg (lt_irrefl a), if_neg (lt_irrefl a)] at h1
      by_cases hac : a < c
      · simp [hac]
      · by_cases hca : c < a
        · rw [if_neg hac, if_pos hca] at h2; exact nomatch h2
        · rw [if_neg hac, if_neg hca] at h2 ⊢
          exact charListLE_trans as bs cs h1 h2
    · rw [if_neg (asymm hab), if_pos hab] at h1; exact nomatch h1

/-- Helper: `charListLE` is antisymmetric. -/
theorem charListLE_antisymm : ∀ as bs : List Char,
    charListLE as bs = true → charListLE bs as = true → as = bs
  | [], [] => fun _ _ => rfl
  | [], _ :: _ => fun _ h2 => nomatch h2
  | _ :: _, [] => fun h1 _ => nomatch h1
  | a :: as, b :: bs => by
    intro h1 h2
    rcases lt_trichotomy a b with h | h | h
    · rw [charListLE, if_neg (asymm h), if_pos h] at h2; exact nomatch h2
    · subst h
      rw [charListLE, if_neg (lt_irrefl a), if_neg (lt_irrefl a)] at h1 h2
      rw [charListLE_antisymm as bs h1 h2]
    · rw [charListLE, if_neg (asymm h), if_pos h] at h1; exact nomatch h1

/-- Helper: totality of the Python string order. -/
theorem pyStrLE_total (a b : String) : pyStrLE a b ∨ pyStrLE b a :=
  charListLE_total _ _

/-- Helper: transitivity of the Python string order. -/
theorem pyStrLE_trans {a b c : String} (h1 : pyStrLE a b) (h2 : pyStrLE b c) :
    pyStrLE a c :=
  charListLE_trans _ _ _ h1 h2

/-- Helper: antisymmetry of the Python string order. -/
theorem pyStrLE_antisymm {a b : String} (h1 : pyStrLE a b) (h2 : pyStrLE b a) :
    a = b := by
  have h := charListLE_antisymm _ _ h1 h2
  cases a
  cases b
  exact congrArg String.mk h

/-- Helper: membership of a (possibly missing) participant id in the
registered id list, phrased as an existential over the roster. -/
theorem pyIdMem_iff (pid : Option String) (regs : List RegisteredPlayer) :
    pyIdMem pid (registered_player_ids regs) = true ↔
      ∃ r ∈ regs, pid = some r.player_id := by
  cases pid with
  | none => simp [pyIdMem]
  | some s => simp [pyIdMem, registered_player_ids, eq_comm]

/-- C1 — for every pair of match values with the same multiset of
participant player ids (axis and allies together) and the same
`match_date` string, `generate_unique_match_id` produces the same
fingerprint, regardless of which side each participant is listed on
and of the order of participants within each roster. -/
theorem fingerprint_stability (m1 m2 : Match)
    (hperm : List.Perm (matchPlayerIds m1) (matchPlayerIds m2))
    (hdate : m1.match_date = m2.match_date) :
    generate_unique_match_id m1 = generate_unique_match_id m2 := by
  have hmem : ∀ x, x ∈ matchPlayerIds m1 ↔ x ∈ matchPlayerIds m2 :=
    fun x => hperm.mem_iff
  have hall : (matchPlayerIds m1).all (·.isSome)
      = (matchPlayerIds m2).all (·.isSome) := by
    by_cases hb : (matchPlayerIds m2).all (·.isSome) = true
    · rw [hb]
      rw [List.all_eq_true] at hb ⊢
      exact fun x hx => hb x ((hmem x).mp hx)
    · have hb1 : ¬ (matchPlayerIds m1).all (·.isSome) = true := by
        intro h1
        refine hb ?_
        rw [List.all_eq_true] at h1 ⊢
        exact fun x hx => h1 x ((hmem x).mpr hx)
      rw [Bool.not_eq_true] at hb hb1
      rw [hb, hb1]
  haveI : IsTotal String pyStrLE := ⟨pyStrLE_total⟩
  haveI : IsTrans String pyStrLE := ⟨fun _ _ _ => pyStrLE_trans⟩
  haveI : IsAntisymm String pyStrLE := ⟨fun _ _ => pyStrLE_antisymm⟩
  have hsort : List.insertionSort pyStrLE ((matchPlayerIds m1).filterMap id)
      = List.insertionSort pyStrLE ((matchPlayerIds m2).filterMap id) :=
    List.eq_of_perm_of_sorted
      ((List.perm_insertionSort _ _).trans
        ((hperm.filterMap id).trans (List.perm_insertionSort _ _).symm))
      (List.sorted_insertionSort _ _) (List.sorted_insertionSort _ _)
  unfold generate_unique_match_id
  rw [hall, hsort, hdate]

/-- C1 witness: the tests' sample custom match and the same match
re-observed with sides swapped and rosters reordered get the same
fingerprint. -/
theorem fingerprint_stability_witness :
    generate_unique_match_id sampleCustomMatch
      = generate_unique_match_id sampleCustomMatchSwapped :=
  fingerprint_stability sampleCustomMatch sampleCustomMatchSwapped (by decide) rfl

/-- C2 — classification returns exactly one of the three routes, and
the routes hold exactly under the spec's conditions: CustomGame iff
the match type contains "custom" (case-insensitively) and every
participant id belongs to a tracked player; AutoMatch iff the type
does not contain "custom" and some participant id belongs to a
tracked player; Discard in all remaining cases. -/
theorem classify_trichotomy (m : Match) (regs : List RegisteredPlayer) :
    (classify m regs = .CustomGame ↔
      (is_custom_type m = true ∧
        ∀ pid ∈ matchPlayerIds m, ∃ r ∈ regs, pid = some r.player_id))
    ∧ (classify m regs = .AutoMatch ↔
      (is_custom_type m = false ∧
        ∃ pid ∈ matchPlayerIds m, ∃ r ∈ regs, pid = some r.player_id))
    ∧ (classify m regs = .Discard ↔
      (¬(is_custom_type m = true ∧
          ∀ pid ∈ matchPlayerIds m, ∃ r ∈ regs, pid = some r.player_id) ∧
       ¬(is_custom_type m = false ∧
          ∃ pid ∈ matchPlayerIds m, ∃ r ∈ regs, pid = some r.player_id))) := by
  have hcust : is_custom_game_between_players m regs = true ↔
      (is_custom_type m = true ∧
        ∀ pid ∈ matchPlayerIds m, ∃ r ∈ regs, pid = some r.player_id) := by
    unfold is_custom_game_between_players
    simp only [Bool.and_eq_true, List.all_eq_true, pyIdMem_iff]
  have hauto : is_auto_match_with_registered_player m regs = true ↔
      (is_custom_type m = false ∧
        ∃ pid ∈ matchPlayerIds m, ∃ r ∈ regs, pid = some r.player_id) := by
    unfold is_auto_match_with_registered_player
    simp only [Bool.and_eq_true, List.any_eq_true, pyIdMem_iff, Bool.not_eq_true']
  unfold classify
  by_cases h1 : is_custom_game_between_players m regs = true
  · rw [if_pos h1]
    have hc := hcust.mp h1
    refine ⟨⟨fun _ => hc, fun _ => rfl⟩, ?_, ?_⟩
    · refine ⟨fun h => (nomatch h), ?_⟩
      rintro ⟨hf, -⟩
      rw [hc.1] at hf
      exact nomatch hf
    · refine ⟨fun h => (nomatch h), ?_⟩
      rintro ⟨hn, -⟩
      exact absurd hc hn
  · rw [if_neg h1]
    by_cases h2 : is_auto_match_with_registered_player m regs = true
    · rw [if_pos h2]
      have ha := hauto.mp h2
      refine ⟨⟨fun h => (nomatch h), fun hr => absurd (hcust.mpr hr) h1⟩,
        ⟨fun _ => ha, fun _ => rfl⟩,
        ⟨fun h => (nomatch h), fun hr => absurd ha hr.2⟩⟩
    · rw [if_neg h2]
      exact ⟨⟨fun h => (nomatch h), fun hr => absurd (hcust.mpr hr) h1⟩,
        ⟨fun h => (nomatch h), fun hr => absurd (hauto.mpr hr) h2⟩,
        ⟨fun _ => ⟨fun hr => h1 (hcust.mpr hr), fun hr => h2 (hauto.mpr hr)⟩,
         fun _ => rfl⟩⟩

/-- C7 counterexample — the claim says a missing participant id is
replaced by the empty string and fingerprinting does not fail; on the
code, fingerprinting a match with a `None` participant id raises
instead (modelled by `Except.error`). -/
theorem fingerprint_missing_id_counterexample :
    generate_unique_match_id missingIdMatch = .error () := rfl

/-- C7 amended — for every match in which some participant's
`player_id` is missing, `generate_unique_match_id` raises a
`TypeError` (no fingerprint is produced; the exception is caught only
at the per-player level of the monitor loop, so the match is not
persisted). -/
theorem fingerprint_missing_id_raises (m : Match)
    (h : none ∈ matchPlayerIds m) :
    generate_unique_match_id m = .error () := by
  have hfalse : ¬ (matchPlayerIds m).all (·.isSome) = true := by
    rw [List.all_eq_true]
    intro hall
    exact nomatch (hall none h)
  unfold generate_unique_match_id
  rw [if_neg hfalse]

/-- C7 amended witness. -/
theorem fingerprint_missing_id_raises_witness :
    generate_unique_match_id missingIdMatch = .error () :=
  fingerprint_missing_id_raises missingIdMatch (by decide)

/-- C10 — a match with two empty rosters is classified CustomGame for
every tracked roster whenever its type contains "custom" (the
universally quantified participant condition is vacuously true), and
Discard whenever it does not (the existential condition is vacuously
false). -/
theorem classify_empty_roster (m : Match) (regs : List RegisteredPlayer)
    (hax : m.axis_players = []) (hal : m.allies_players = []) :
    (is_custom_type m = true → classify m regs = .CustomGame) ∧
    (is_custom_type m = false → classify m regs = .Discard) := by
  have hids : matchPlayerIds m = [] := by
    simp [matchPlayerIds, hax, hal]
  constructor
  · intro hc
    unfold classify
    rw [if_pos]
    unfold is_custom_game_between_players
    simp [hids, hc]
  · intro hc
    unfold classify is_custom_game_between_players is_auto_match_with_registered_player
    simp [hids, hc]

/-- C10 witness: the empty-roster custom match routes to CustomGames
for the test roster (and for the empty roster), the empty-roster
automatch is discarded. -/
theorem classify_empty_roster_witness :
    classify emptyRosterCustomMatch samplePlayers = .CustomGame
    ∧ classify emptyRosterAutoMatch samplePlayers = .Discard :=
  ⟨(classify_empty_roster emptyRosterCustomMatch samplePlayers rfl rfl).1 (by decide),
   (classify_empty_roster emptyRosterAutoMatch samplePlayers rfl rfl).2 (by decide)⟩

end Sejusaas

namespace Sejusaas

/-- Helper: a fingerprint found in a collection is still found after
the collection grows. -/
theorem find_by_uid_append (c e : List StoredMatch) (uid : String)
    (h : find_by_uid c uid = true) : find_by_uid (c ++ e) uid = true := by
  simp only [find_by_uid, List.any_eq_true] at h ⊢
  obtain ⟨sm, hsm, hq⟩ := h
  exact ⟨sm, List.mem_append_left _ hsm, hq⟩

/-- Helper: a fingerprint that `find_one` does not see is not among
the stored ids. -/
theorem find_by_uid_false_not_mem (c : List StoredMatch) (uid : String)
    (h : ¬ find_by_uid c uid = true) :
    uid ∉ c.map (fun sm => sm.unique_match_id) := by
  intro hmem
  obtain ⟨sm, hsm, hq⟩ := List.mem_map.mp hmem
  refine h ?_
  simp only [find_by_uid, List.any_eq_true, decide_eq_true_eq]
  exact ⟨sm, hsm, hq⟩

/-- Helper: `process_matches_aux` only ever appends to the two
collections. -/
theorem process_matches_aux_grows (regs : List RegisteredPlayer) (now : Nat) :
    ∀ (ms : List Match) (s : Store) (nc na : Nat) (s1 : Store) (nc1 na1 : Nat),
      process_matches_aux regs now ms s nc na = .ok (s1, nc1, na1) →
      (∃ ec, s1.custom_games = s.custom_games ++ ec)
      ∧ (∃ ea, s1.auto_matches = s.auto_matches ++ ea) := by
  intro ms
  induction ms with
  | nil =>
    intro s nc na s1 nc1 na1 h
    simp only [process_matches_aux, Except.ok.injEq, Prod.mk.injEq] at h
    obtain ⟨rfl, rfl, rfl⟩ := h
    exact ⟨⟨[], by simp⟩, ⟨[], by simp⟩⟩
  | cons m rest ih =>
    intro s nc na s1 nc1 na1 h
    cases hg : generate_unique_match_id m with
    | error e =>
      simp only [process_matches_aux, hg] at h
      exact (nomatch h)
    | ok uid =>
      simp only [process_matches_aux, hg] at h
      by_cases hc : is_custom_game_between_players m regs = true
      · rw [if_pos hc] at h
        by_cases hf : find_by_uid s.custom_games uid = true
        · rw [if_pos hf] at h
          exact ih _ _ _ _ _ _ h
        · rw [if_neg hf] at h
          obtain ⟨⟨ec, hec⟩, ⟨ea, hea⟩⟩ := ih _ _ _ _ _ _ h
          refine ⟨⟨⟨{ m with unique_match_id := uid }, uid, now⟩ :: ec, ?_⟩, ⟨ea, hea⟩⟩
          rw [hec]
          simp
      · rw [if_neg hc] at h
        by_cases hau : is_auto_match_with_registered_player m regs = true
        · rw [if_pos hau] at h
          by_cases hf : find_by_uid s.auto_matches uid = true
          · rw [if_pos hf] at h
            exact ih _ _ _ _ _ _ h
          · rw [if_neg hf] at h
            obtain ⟨⟨ec, hec⟩, ⟨ea, hea⟩⟩ := ih _ _ _ _ _ _ h
            refine ⟨⟨ec, hec⟩, ⟨⟨{ m with unique_match_id := uid }, uid, now⟩ :: ea, ?_⟩⟩
            rw [hea]
            simp
        · rw [if_neg hau] at h
          exact ih _ _ _ _ _ _ h

/-- Helper: after a successful run, every processed match has a
fingerprint, and that fingerprint is present in the collection its
classification routes it to. -/
theorem process_matches_aux_covers (regs : List RegisteredPlayer) (now : Nat) :
    ∀ (ms : List Match) (s : Store) (nc na : Nat) (s1 : Store) (nc1 na1 : Nat),
      process_matches_aux regs now ms s nc na = .ok (s1, nc1, na1) →
      ∀ m ∈ ms, ∃ uid, generate_unique_match_id m = .ok uid ∧
        (is_custom_game_between_players m regs = true →
          find_by_uid s1.custom_games uid = true) ∧
        (is_custom_game_between_players m regs = false →
          is_auto_match_with_registered_player m regs = true →
          find_by_uid s1.auto_matches uid = true) := by
  intro ms
  induction ms with
  | nil =>
    intro s nc na s1 nc1 na1 h m hm
    exact absurd hm (List.not_mem_nil m)
  | cons m0 rest ih =>
    intro s nc na s1 nc1 na1 h m hm
    cases hg : generate_unique_match_id m0 with
    | error e =>
      simp only [process_matches_aux, hg] at h
      exact (nomatch h)
    | ok uid0 =>
      simp only [process_matches_aux, hg] at h
      rcases List.mem_cons.mp hm with rfl | hm2
      · refine ⟨uid0, hg, ?_, ?_⟩
        · intro hc
          rw [if_pos hc] at h
          by_cases hf : find_by_uid s.custom_games uid0 = true
          · rw [if_pos hf] at h
            obtain ⟨⟨ec, hec⟩, -⟩ := process_matches_aux_grows regs now _ _ _ _ _ _ _ h
            rw [hec]
            exact find_by_uid_append _ _ _ hf
          · rw [if_neg hf] at h
            obtain ⟨⟨ec, hec⟩, -⟩ := process_matches_aux_grows regs now _ _ _ _ _ _ _ h
            rw [hec]
            refine find_by_uid_append _ _ _ ?_
            simp [find_by_uid]
        · intro hc hau
          rw [if_neg (by simp [hc])] at h
          rw [if_pos hau] at h
          by_cases hf : find_by_uid s.auto_matches uid0 = true
          · rw [if_pos hf] at h
            obtain ⟨-, ⟨ea, hea⟩⟩ := process_matches_aux_grows regs now _ _ _ _ _ _ _ h
            rw [hea]
            exact find_by_uid_append _ _ _ hf
          · rw [if_neg hf] at h
            obtain ⟨-, ⟨ea, hea⟩⟩ := process_matches_aux_grows regs now _ _ _ _ _ _ _ h
            rw [hea]
            refine find_by_uid_append _ _ _ ?_
            simp [find_by_uid]
      · by_cases hc : is_custom_game_between_players m0 regs = true
        · rw [if_pos hc] at h
          by_cases hf : find_by_uid s.custom_games uid0 = true
          · rw [if_pos hf] at h; exact ih _ _ _ _ _ _ h m hm2
          · rw [if_neg hf] at h; exact ih _ _ _ _ _ _ h m hm2
        · rw [if_neg hc] at h
          by_cases hau : is_auto_match_with_registered_player m0 regs = true
          · rw [if_pos hau] at h
            by_cases hf : find_by_uid s.auto_matches uid0 = true
            · rw [if_pos hf] at h; exact ih _ _ _ _ _ _ h m hm2
            · rw [if_neg hf] at h; exact ih _ _ _ _ _ _ h m hm2
          · rw [if_neg hau] at h; exact ih _ _ _ _ _ _ h m hm2

/-- Helper: a run over matches whose fingerprints are already stored
in the right collections inserts nothing and leaves the store as it
is. -/
theorem process_matches_aux_stable (regs : List RegisteredPlayer) (now : Nat) :
    ∀ (ms : List Match) (s : Store) (nc na : Nat),
      (∀ m ∈ ms, ∃ uid, generate_unique_match_id m = .ok uid ∧
        (is_custom_game_between_players m regs = true →
          find_by_uid s.custom_games uid = true) ∧
        (is_custom_game_between_players m regs = false →
          is_auto_match_with_registered_player m regs = true →
          find_by_uid s.auto_matches uid = true)) →
      process_matches_aux regs now ms s nc na = .ok (s, nc, na) := by
  intro ms
  induction ms with
  | nil => intro s nc na _; rfl
  | cons m rest ih =>
    intro s nc na hcov
    obtain ⟨uid, hgen, hcu, hau⟩ := hcov m (List.mem_cons_self m rest)
    simp only [process_matches_aux, hgen]
    by_cases hc : is_custom_game_between_players m regs = true
    · rw [if_pos hc, if_pos (hcu hc)]
      exact ih _ _ _ (fun m2 hm2 => hcov m2 (List.mem_cons_of_mem m hm2))
    · have hc' : is_custom_game_between_players m regs = false := by
        revert hc
        cases is_custom_game_between_players m regs <;> simp
      rw [if_neg hc]
      by_cases ha2 : is_auto_match_with_registered_player m regs = true
      · rw [if_pos ha2, if_pos (hau hc' ha2)]
        exact ih _ _ _ (fun m2 hm2 => hcov m2 (List.mem_cons_of_mem m hm2))
      · rw [if_neg ha2]
        exact ih _ _ _ (fun m2 hm2 => hcov m2 (List.mem_cons_of_mem m hm2))

/-- Helper: a run started on a store without duplicate fingerprints
ends on a store without duplicate fingerprints: each insert is guarded
by the `find_one` existence check. -/
theorem process_matches_aux_nodup (regs : List RegisteredPlayer) (now : Nat) :
    ∀ (ms : List Match) (s : Store) (nc na : Nat) (s1 : Store) (nc1 na1 : Nat),
      process_matches_aux regs now ms s nc na = .ok (s1, nc1, na1) →
      (s.custom_games.map (fun sm => sm.unique_match_id)).Nodup →
      (s.auto_matches.map (fun sm => sm.unique_match_id)).Nodup →
      (s1.custom_games.map (fun sm => sm.unique_match_id)).Nodup
      ∧ (s1.auto_matches.map (fun sm => sm.unique_match_id)).Nodup := by
  intro ms
  induction ms with
  | nil =>
    intro s nc na s1 nc1 na1 h hnc hna
    simp only [process_matches_aux, Except.ok.injEq, Prod.mk.injEq] at h
    obtain ⟨rfl, rfl, rfl⟩ := h
    exact ⟨hnc, hna⟩
  | cons m rest ih =>
    intro s nc na s1 nc1 na1 h hnc hna
    cases hg : generate_unique_match_id m with
    | error e =>
      simp only [process_matches_aux, hg] at h
      exact (nomatch h)
    | ok uid =>
      simp only [process_matches_aux, hg] at h
      by_cases hc : is_custom_game_between_players m regs = true
      · rw [if_pos hc] at h
        by_cases hf : find_by_uid s.custom_games uid = true
        · rw [if_pos hf] at h; exact ih _ _ _ _ _ _ h hnc hna
        · rw [if_neg hf] at h
          refine ih _ _ _ _ _ _ h ?_ hna
          simp only [List.map_append, List.map_cons, List.map_nil]
          rw [List.nodup_append]
          refine ⟨hnc, List.nodup_singleton uid, ?_⟩
          intro x hx hx2
          simp only [List.mem_singleton] at hx2
          subst hx2
          exact find_by_uid_false_not_mem _ _ hf hx
      · rw [if_neg hc] at h
        by_cases hau : is_auto_match_with_registered_player m regs = true
        · rw [if_pos hau] at h
          by_cases hf : find_by_uid s.auto_matches uid = true
          · rw [if_pos hf] at h; exact ih _ _ _ _ _ _ h hnc hna
          · rw [if_neg hf] at h
            refine ih _ _ _ _ _ _ h hnc ?_
            simp only [List.map_append, List.map_cons, List.map_nil]
            rw [List.nodup_append]
            refine ⟨hna, List.nodup_singleton uid, ?_⟩
            intro x hx hx2
            simp only [List.mem_singleton] at hx2
            subst hx2
            exact find_by_uid_false_not_mem _ _ hf hx
        · rw [if_neg hau] at h; exact ih _ _ _ _ _ _ h hnc hna

/-- C3 — persistence is idempotent with respect to the fingerprint:
after a successful `process_matches` run over a batch, re-running the
same batch against the resulting store (at any later cycle time)
inserts nothing — it returns the store unchanged with zero new custom
games and zero new auto matches — and the store keeps at most one
record per fingerprint in each collection. -/
theorem process_matches_idempotent (ms : List Match)
    (regs : List RegisteredPlayer) (now now2 : Nat) (s s1 : Store) (nc na : Nat)
    (hrun : process_matches ms regs now s = .ok (s1, nc, na))
    (hc : (s.custom_games.map (fun sm => sm.unique_match_id)).Nodup)
    (ha : (s.auto_matches.map (fun sm => sm.unique_match_id)).Nodup) :
    process_matches ms regs now2 s1 = .ok (s1, 0, 0)
    ∧ (s1.custom_games.map (fun sm => sm.unique_match_id)).Nodup
    ∧ (s1.auto_matches.map (fun sm => sm.unique_match_id)).Nodup := by
  unfold process_matches at hrun ⊢
  have hcov := process_matches_aux_covers regs now _ _ _ _ _ _ _ hrun
  have hnodup := process_matches_aux_nodup regs now _ _ _ _ _ _ _ hrun hc ha
  exact ⟨process_matches_aux_stable regs now2 ms s1 0 0 hcov, hnodup⟩

/-- C3 witness: processing the tests' sample custom match against an
empty store inserts it once; re-processing against the resulting
store is a no-op with zero inserts. -/
theorem process_matches_idempotent_witness :
    process_matches [sampleCustomMatch] samplePlayers 2 sampleStoreAfter
      = .ok (sampleStoreAfter, 0, 0) :=
  (process_matches_idempotent [sampleCustomMatch] samplePlayers 1 2
    ⟨[], []⟩ sampleStoreAfter 1 0 rfl (by simp) (by simp)).1

end Sejusaas

/-- Helper: looking up the key just assigned. -/
theorem alookup_aset_self {α : Type} (l : List (String × α)) (k : String) (v : α) :
    alookup (aset l k v) k = some v := by
  induction l with
  | nil => simp [aset, alookup]
  | cons kv rest ih =>
    obtain ⟨k1, v1⟩ := kv
    by_cases h : k1 = k
    · simp [aset, alookup, h]
    · simp [aset, alookup, h, ih]

/-- Helper: assignment to one key leaves every other key's binding
unchanged. -/
theorem alookup_aset_ne {α : Type} (l : List (String × α)) (k k2 : String) (v : α)
    (h : k ≠ k2) : alookup (aset l k v) k2 = alookup l k2 := by
  induction l with
  | nil => simp [aset, alookup, h]
  | cons kv rest ih =>
    obtain ⟨k1, v1⟩ := kv
    by_cases h1 : k1 = k
    · subst h1
      simp [aset, alookup, h]
    · simp only [aset, if_neg h1, alookup]
      by_cases h2 : k1 = k2
      · simp [h2]
      · simp [h2, ih]

namespace Sejusaas

/-- Helper: the initialisation loop of `get_players_to_analyze` never
overwrites an existing check-time entry. -/
theorem init_check_times_preserves (now : Nat) (pid : String) (t : Nat) :
    ∀ (players : List RegisteredPlayer) (lc : LastCheck),
      alookup lc pid = some t →
      alookup (init_check_times players now lc) pid = some t := by
  intro players
  induction players with
  | nil =>
    intro lc h
    simpa [init_check_times] using h
  | cons p ps ih =>
    intro lc h
    have hstep : init_check_times (p :: ps) now lc
        = init_check_times ps now
            (if alookup lc p.player_id = none then aset lc p.player_id now else lc) := by
      simp [init_check_times]
    rw [hstep]
    refine ih _ ?_
    by_cases hpp : alookup lc p.player_id = none
    · rw [if_pos hpp]
      by_cases hk : p.player_id = pid
      · subst hk
        rw [h] at hpp
        exact (nomatch hpp)
      · rw [alookup_aset_ne _ _ _ _ hk]
        exact h
    · rw [if_neg hpp]
      exact h

/-- C9 counterexample — the claim says batch selection leaves the
per-player last-check state unchanged; on the code, selecting a batch
over a roster with a player unknown to `last_check_times` writes the
current time into the map for that player. -/
theorem get_players_to_analyze_mutates_counterexample :
    alookup (get_players_to_analyze [⟨"123", "seju-fuminguez"⟩] [] 42).2 "123"
      = some 42
    ∧ alookup ([] : LastCheck) "123" = none :=
  ⟨rfl, rfl⟩

/-- C9 amended — batch selection never modifies the last-check entry
of a player already present in the map; it only inserts an initial
entry (the current time) for players not seen before.  Entries of
already-tracked players are advanced only by the monitor after a
completed check. -/
theorem get_players_to_analyze_preserves_existing
    (players : List RegisteredPlayer) (lc : LastCheck) (now : Nat)
    (pid : String) (t : Nat) (h : alookup lc pid = some t) :
    alookup (get_players_to_analyze players lc now).2 pid = some t := by
  show alookup (init_check_times players now lc) pid = some t
  exact init_check_times_preserves now pid t players lc h

/-- C9 amended witness. -/
theorem get_players_to_analyze_preserves_existing_witness :
    alookup (get_players_to_analyze samplePlayers [("123", 7)] 42).2 "123"
      = some 7 :=
  get_players_to_analyze_preserves_existing samplePlayers [("123", 7)] 42 "123" 7 rfl

/-- Helper: one player step of `check_for_new_games` writes no
last-check entry other than its own player id. -/
theorem check_player_other_pid (fetch : String → String → Except Unit (List Match))
    (regs : List RegisteredPlayer) (now : Nat) (st : MonitorState)
    (p : RegisteredPlayer) (pid : String) (hne : p.player_id ≠ pid) :
    alookup (check_player fetch regs now st p).last_check_times pid
      = alookup st.last_check_times pid := by
  unfold check_player
  cases hfe : fetch p.player_id p.player_name with
  | error e => simp only [hfe]
  | ok ms =>
    simp only [hfe]
    cases hpm : process_matches ms regs now st.store with
    | error s2 => simp only [hpm]
    | ok r =>
      obtain ⟨s2, nc2, na2⟩ := r
      simp only [hpm]
      exact alookup_aset_ne _ _ _ _ hne

/-- Helper: a batch containing no player with the given id leaves that
id's last-check entry unchanged. -/
theorem check_players_batch_other_pids (fetch : String → String → Except Unit (List Match))
    (regs : List RegisteredPlayer) (now : Nat) (pid : String) :
    ∀ (batch : List RegisteredPlayer) (st : MonitorState),
      (∀ p ∈ batch, p.player_id ≠ pid) →
      alookup (check_players_batch fetch regs now batch st).last_check_times pid
        = alookup st.last_check_times pid := by
  intro batch
  induction batch with
  | nil => intro st _; rfl
  | cons p ps ih =>
    intro st hall
    show alookup (check_players_batch fetch regs now ps
        (check_player fetch regs now st p)).last_check_times pid = _
    rw [ih _ (fun q hq => hall q (List.mem_cons_of_mem p hq)),
      check_player_other_pid fetch regs now st p pid (hall p (List.mem_cons_self p ps))]

/-- Helper: players whose fetch raises act as the identity step, so
the whole batch behaves as if they were filtered out. -/
theorem check_players_batch_filter_failed (fetch : String → String → Except Unit (List Match))
    (regs : List RegisteredPlayer) (now : Nat) (pid : String)
    (hf : ∀ nm, fetch pid nm = .error ()) :
    ∀ (batch : List RegisteredPlayer) (st : MonitorState),
      check_players_batch fetch regs now batch st
        = check_players_batch fetch regs now
            (batch.filter (fun p => p.player_id != pid)) st := by
  intro batch
  induction batch with
  | nil => intro st; rfl
  | cons p ps ih =>
    intro st
    by_cases hp : p.player_id = pid
    · have hstep : check_player fetch regs now st p = st := by
        unfold check_player
        rw [hp, hf p.player_name]
      have hfilter : (p :: ps).filter (fun p => p.player_id != pid)
          = ps.filter (fun p => p.player_id != pid) := by
        simp [List.filter_cons, hp]
      rw [hfilter]
      show check_players_batch fetch regs now ps (check_player fetch regs now st p) = _
      rw [hstep]
      exact ih st
    · have hfilter : (p :: ps).filter (fun p => p.player_id != pid)
          = p :: ps.filter (fun p => p.player_id != pid) := by
        simp [List.filter_cons, hp]
      rw [hfilter]
      show check_players_batch fetch regs now ps (check_player fetch regs now st p)
          = check_players_batch fetch regs now
              (ps.filter (fun p => p.player_id != pid)) (check_player fetch regs now st p)
      exact ih _

/-- C8 — an exception raised while checking one player (here: every
fetch for that player id raises) is caught and that player is skipped
without aborting the batch: the cycle behaves exactly as if the
failing player were absent from the batch, and that player's
last-check entry is left untouched (it is advanced only after a
completed check), so the player is retried at the next eligible
cycle. -/
theorem check_players_batch_skips_failed_player
    (fetch : String → String → Except Unit (List Match))
    (regs : List RegisteredPlayer) (now : Nat) (batch : List RegisteredPlayer)
    (st : MonitorState) (pid : String)
    (hf : ∀ nm, fetch pid nm = .error ()) :
    check_players_batch fetch regs now batch st
      = check_players_batch fetch regs now
          (batch.filter (fun p => p.player_id != pid)) st
    ∧ alookup (check_players_batch fetch regs now batch st).last_check_times pid
        = alookup st.last_check_times pid := by
  have h1 := check_players_batch_filter_failed fetch regs now pid hf batch st
  refine ⟨h1, ?_⟩
  rw [h1]
  refine check_players_batch_other_pids fetch regs now pid _ st ?_
  intro q hq
  have := (List.mem_filter.mp hq).2
  simpa using this

/-- C8 witness: a batch of one player whose fetch always raises
leaves the monitor state unchanged. -/
theorem check_players_batch_skips_failed_player_witness :
    check_players_batch sampleFailFetch samplePlayers 9
        [⟨"123", "seju-fuminguez"⟩] sampleMonitorState
      = check_players_batch sampleFailFetch samplePlayers 9
          ([⟨"123", "seju-fuminguez"⟩].filter (fun p => p.player_id != "123"))
          sampleMonitorState
    ∧ alookup (check_players_batch sampleFailFetch samplePlayers 9
          [⟨"123", "seju-fuminguez"⟩] sampleMonitorState).last_check_times "123"
        = alookup sampleMonitorState.last_check_times "123" :=
  check_players_batch_skips_failed_player sampleFailFetch samplePlayers 9
    [⟨"123", "seju-fuminguez"⟩] sampleMonitorState "123" (fun _ => rfl)

end Sejusaas

namespace ServicesGM

/-- Helper: the never-checked-first key order is total. -/
theorem keyLE_total : ∀ a b : Option Nat, keyLE a b ∨ keyLE b a
  | none, _ => Or.inl trivial
  | some _, none => Or.inr trivial
  | some x, some y => (Nat.le_total x y).imp id id

/-- Helper: the never-checked-first key order is transitive. -/
theorem keyLE_trans : ∀ (a b c : Option Nat), keyLE a b → keyLE b c → keyLE a c
  | none, _, _, _, _ => trivial
  | some _, none, _, h1, _ => False.elim h1
  | some _, some _, none, _, h2 => False.elim h2
  | some _, some _, some _, h1, h2 => Nat.le_trans h1 h2

/-- Helper: initialising pending first checks does not change any
player's sort value (an unseen player reads as `None` before and
after). -/
theorem sortVal_init (players : List RegisteredPlayer) (lc : LastCheckN)
    (pid : String) :
    sortVal (init_check_times players lc) pid = sortVal lc pid := by
  induction players generalizing lc with
  | nil => simp [init_check_times]
  | cons p ps ih =>
    have hstep : init_check_times (p :: ps) lc
        = init_check_times ps
            (if alookup lc p.player_id = none then aset lc p.player_id none else lc) := by
      simp [init_check_times]
    rw [hstep, ih]
    by_cases hpp : alookup lc p.player_id = none
    · rw [if_pos hpp]
      by_cases hk : p.player_id = pid
      · subst hk
        simp [sortVal, alookup_aset_self, hpp]
      · simp [sortVal, alookup_aset_ne _ _ _ _ hk]
    · rw [if_neg hpp]

/-- C4 — batch selection sorts the roster into a permutation ordered
by the staleness key — a player never checked before (sort value
`None`) precedes every player with a concrete check time, and players
with concrete check times are in ascending `last_checked_at` order —
and returns the first 5 entries (the batch size) of that ordering;
marking pending first checks beforehand does not alter any sort
value. -/
theorem get_players_to_analyze_policy (players : List RegisteredPlayer)
    (lc : LastCheckN) :
    List.Perm (sorted_players players (init_check_times players lc)) players
    ∧ List.Sorted (stale_rel (init_check_times players lc))
        (sorted_players players (init_check_times players lc))
    ∧ (get_players_to_analyze players lc).1
        = (sorted_players players (init_check_times players lc)).take 5
    ∧ (∀ pid, sortVal (init_check_times players lc) pid = sortVal lc pid)
    ∧ (∀ v, keyLE none v)
    ∧ (∀ x y : Nat, keyLE (some x) (some y) ↔ x ≤ y) := by
  haveI : IsTotal RegisteredPlayer (stale_rel (init_check_times players lc)) :=
    ⟨fun p q => keyLE_total _ _⟩
  haveI : IsTrans RegisteredPlayer (stale_rel (init_check_times players lc)) :=
    ⟨fun p q r => keyLE_trans _ _ _⟩
  refine ⟨List.perm_insertionSort _ _, List.sorted_insertionSort _ _, rfl,
    fun pid => sortVal_init players lc pid, fun v => trivial, fun x y => Iff.rfl⟩

end ServicesGM

namespace ServicesGM

/-- Helper: bind on a successful `Except` computation. -/
theorem except_bind_ok {α β : Type} (a : α) (f : α → Except Unit β) :
    (Except.ok a >>= f : Except Unit β) = f a := rfl

/-- Helper: bind on a failed `Except` computation. -/
theorem except_bind_error {α β : Type} (e : Unit) (f : α → Except Unit β) :
    ((Except.error e : Except Unit α) >>= f) = .error e := rfl

/-- Helper: map over a successful `Except` computation. -/
theorem except_map_ok {α β : Type} (f : α → β) (a : α) :
    (f <$> (Except.ok a : Except Unit α)) = .ok (f a) := rfl

/-- Helper: map over a failed `Except` computation. -/
theorem except_map_error {α β : Type} (e : Unit) (f : α → β) :
    (f <$> (.error e : Except Unit α)) = .error e := rfl

/-- Helper: `pure` for the `Except` monad. -/
theorem except_pure {α : Type} (a : α) : (pure a : Except Unit α) = .ok a := rfl

/-- C5 — for every page input (including every combination of failing
page operations), `extract_matches_from_page` returns a list: a
successful strategy-chain run passes its records through unchanged,
and any internal error is caught by the function-wide `except` clause
and degrades to the empty overall result — in particular a selector
timeout before the first strategy.  No exception reaches the
caller. -/
theorem extract_matches_never_propagates (pg : PageInput) (pid pn : String) :
    (∀ e, extract_matches_body pg pid pn = .error e →
      extract_matches_from_page pg pid pn = [])
    ∧ (∀ ms, extract_matches_body pg pid pn = .ok ms →
      extract_matches_from_page pg pid pn = ms)
    ∧ (pg.wait_table = .error () → extract_matches_from_page pg pid pn = []) := by
  refine ⟨?_, ?_, ?_⟩
  · intro e h
    unfold extract_matches_from_page
    rw [h]
  · intro ms h
    unfold extract_matches_from_page
    rw [h]
  · intro hw
    have hbody : extract_matches_body pg pid pn = .error () := by
      unfold extract_matches_body
      rw [hw]
      rfl
    unfold extract_matches_from_page
    rw [hbody]

/-- C5 witness: a page whose table-selector wait times out yields the
empty result rather than an exception. -/
theorem extract_matches_never_propagates_witness :
    extract_matches_from_page sampleFailPage "p" "n" = [] :=
  (extract_matches_never_propagates sampleFailPage "p" "n").2.2 rfl

/-- C6 — the strategies run in fixed priority order and the first
non-empty record list wins: when the `__NEXT_DATA__` strategy yields
records, the extraction result is exactly those records no matter
what the table query would return (it is never consulted); the
rendered-table strategy's result is used exactly when the
structured-data strategy produced zero records (either an empty list
or an unusable `__NEXT_DATA__` payload). -/
theorem extraction_first_nonempty_strategy_wins
    (now : Int) (nd : Json) (rowsE : Except Unit (List TableRow))
    (rows2 : List TableRow) (shot : Except Unit Unit)
    (pid pn : String) (ms : List Match) :
    (jtruthy nd = true → processNextData nd pid pn now = .ok ms → ms ≠ [] →
      extract_matches_from_page ⟨now, .ok (), .ok nd, .ok (), rowsE, shot⟩ pid pn = ms)
    ∧ (jtruthy nd = true → processNextData nd pid pn now = .ok [] →
      extract_matches_from_page ⟨now, .ok (), .ok nd, .ok (), .ok rows2, shot⟩ pid pn
        = (if rows2.length > 1 then processTableRows pid pn (rows2.drop 1) else []))
    ∧ (jtruthy nd = false →
      extract_matches_from_page ⟨now, .ok (), .ok nd, .ok (), .ok rows2, shot⟩ pid pn
        = (if rows2.length > 1 then processTableRows pid pn (rows2.drop 1) else [])) := by
  refine ⟨?_, ?_, ?_⟩
  · intro hjt hpn hne
    obtain ⟨m0, rest, rfl⟩ : ∃ a l, ms = a :: l := by
      cases ms with
      | nil => exact absurd rfl hne
      | cons a l => exact ⟨a, l, rfl⟩
    simp [extract_matches_from_page, extract_matches_body, hjt, hpn,
      except_bind_ok, except_bind_error, except_map_ok, except_map_error, except_pure,
      List.isEmpty_iff]
  · intro hjt hpn
    by_cases hemp : (if rows2.length > 1 then processTableRows pid pn (rows2.drop 1) else []) = []
    all_goals simp only [gt_iff_lt, List.drop_one] at hemp
    · cases shot with
      | error e =>
        simp [extract_matches_from_page, extract_matches_body, hjt, hpn, hemp,
          except_bind_ok, except_bind_error, except_map_ok, except_map_error, except_pure,
          List.isEmpty_iff]
      | ok u =>
        simp [extract_matches_from_page, extract_matches_body, hjt, hpn, hemp,
          except_bind_ok, except_bind_error, except_map_ok, except_map_error, except_pure,
          List.isEmpty_iff]
    · simp [extract_matches_from_page, extract_matches_body, hjt, hpn, hemp,
        except_bind_ok, except_bind_error, except_map_ok, except_map_error, except_pure,
        List.isEmpty_iff]
  · intro hjt
    by_cases hemp : (if rows2.length > 1 then processTableRows pid pn (rows2.drop 1) else []) = []
    all_goals simp only [gt_iff_lt, List.drop_one] at hemp
    · cases shot with
      | error e =>
        simp [extract_matches_from_page, extract_matches_body, hjt, hemp,
          except_bind_ok, except_bind_error, except_map_ok, except_map_error, except_pure,
          List.isEmpty_iff]
      | ok u =>
        simp [extract_matches_from_page, extract_matches_body, hjt, hemp,
          except_bind_ok, except_bind_error, except_map_ok, except_map_error, except_pure,
          List.isEmpty_iff]
    · simp [extract_matches_from_page, extract_matches_body, hjt, hemp,
        except_bind_ok, except_bind_error, except_map_ok, except_map_error, except_pure,
        List.isEmpty_iff]

/-- C6 witness: a structured-data payload with one match wins even
though the table query would raise; with no structured data and no
rows the result is empty. -/
theorem extraction_first_nonempty_strategy_wins_witness :
    extract_matches_from_page sampleGoodPage "1" "nm" = [sampleNextMatch]
    ∧ extract_matches_from_page sampleNullPage "1" "nm" = [] := by
  constructor
  · exact (extraction_first_nonempty_strategy_wins 0 sampleNextData (.error ()) []
      (.ok ()) "1" "nm" [sampleNextMatch]).1 rfl rfl (by simp)
  · have h := (extraction_first_nonempty_strategy_wins 0 Json.null (.ok []) []
      (.ok ()) "1" "nm" []).2.2 rfl
    simpa using h

end ServicesGM
